import Mathlib

/-!
Shallow embedding of the Stone-Paper-Scissor backend (`src/server.js` plus the
two mongoose models `src/models/User.js` and `src/models/Game.js`).

JavaScript strings are modelled as `List Char`; the persistent store as a pair
of lists (users, games); the clock as a `Nat` millisecond timestamp threaded
through each handler; `Math.random`-derived draws as explicit parameters
(`r < 9000` for the OTP draw, `Fin 3` for the computer's choice).  bcrypt and
the JWT library are external collaborators and are modelled by their contracts:
a salted hash that compares equal exactly to its own plaintext, and a signed
triple (userId, exp, sig) serialised as dot-separated decimal fields.
-/

/-- JavaScript strings, as lists of characters. -/
abbrev Str := List Char

/-- Whitespace for `String.prototype.trim` (ASCII subset; OTP/mobile inputs are digits). -/
def isWS (c : Char) : Bool :=
  c == ' ' || c == '\t' || c == '\n' || c == '\r'

/-- `s.trim()` — strip leading and trailing whitespace. -/
def trim (s : Str) : Str :=
  ((s.dropWhile isWS).reverse.dropWhile isWS).reverse

/-- The regex test `/^\d{10}$/.test(s)`. -/
def matchTenDigits (s : Str) : Bool :=
  s.length == 10 && s.all Char.isDigit

/-- The regex test `/^\d{4}$/.test(s)`. -/
def matchFourDigits (s : Str) : Bool :=
  s.length == 4 && s.all Char.isDigit

/-- `s.split(sep)` for a one-character separator, JavaScript semantics:
empty fields are preserved and the result is never the empty list. -/
def splitOnChar (sep : Char) : Str → List Str
  | [] => [[]]
  | c :: cs =>
    if c == sep then [] :: splitOnChar sep cs
    else
      match splitOnChar sep cs with
      | [] => [[c]]
      | p :: ps => (c :: p) :: ps

/-- Digits of a decimal string, most significant first (no validity check). -/
def parseNatDigits (s : Str) : Nat :=
  s.foldl (fun a c => a * 10 + (c.toNat - 48)) 0

/-- Parse a nonempty all-digit string as a natural number. -/
def parseNat (s : Str) : Option Nat :=
  if s ≠ [] ∧ s.all Char.isDigit then some (parseNatDigits s) else none

/-- The character of a decimal digit. -/
def digitChar (d : Nat) : Char := Char.ofNat (48 + d)

/-- Decimal rendering worker; the fuel argument only bounds recursion depth. -/
def toCharsAux : Nat → Nat → Str
  | 0, _ => []
  | fuel + 1, n =>
    if n < 10 then [digitChar n]
    else toCharsAux fuel (n / 10) ++ [digitChar (n % 10)]

/-- `n.toString()` for a natural number: its decimal digit characters. -/
def natToChars (n : Nat) : Str := toCharsAux (n + 1) n

/-- A JSON value arriving in a request body field (the shapes the handlers probe). -/
inductive BodyVal where
  | vstr (s : Str)
  | vnum (n : Int)
  | vbool (b : Bool)
  | vnull
deriving DecidableEq

/-- JavaScript truthiness of a body value (`""`, `0`, `false`, `null` are falsy). -/
def truthy : BodyVal → Bool
  | .vstr s => s != []
  | .vnum n => n != 0
  | .vbool b => b
  | .vnull => false

/-- Model of a bcrypt hash: `bcrypt.hash(code, rounds)` is one-way and salted;
all the server relies on is that `compare` succeeds exactly on the hashed code. -/
structure BHash where
  code : Str
  salt : Nat
deriving DecidableEq

/-- `bcrypt.hash(code, salt)`. -/
def bcryptHash (code : Str) (salt : Nat) : BHash := ⟨code, salt⟩

/-- `bcrypt.compare(code, h)`: true exactly when `h` hashes `code`. -/
def bcryptCompare (code : Str) (h : BHash) : Bool :=
  code == h.code

/-- A decoded JWT: payload `{ userId }`, an expiry instant, and a signature. -/
structure Token where
  userId : Nat
  exp : Nat
  sig : Nat
deriving DecidableEq

/-- Model of the HMAC the JWT library computes over the payload with the secret. -/
def hmacSig (secret uid exp : Nat) : Nat :=
  (secret + 1) * 1000003 + uid * 1009 + exp

/-- `jwt.sign({ userId }, secret, { expiresIn: "1h" })` at instant `now`. -/
def jwtSign (secret uid now : Nat) : Token :=
  ⟨uid, now + 3600000, hmacSig secret uid (now + 3600000)⟩

/-- Decode a serialised token: three dot-separated decimal fields. -/
def decodeToken (s : Str) : Option Token :=
  match splitOnChar '.' s with
  | [a, b, c] =>
    match parseNat a, parseNat b, parseNat c with
    | some u, some e, some g => some ⟨u, e, g⟩
    | _, _, _ => none
  | _ => none

/-- `jwt.verify(s, secret)` at instant `now`: decode, check the signature,
reject at or after `exp`; returns the embedded `userId` on success. -/
def jwtVerify (s : Str) (secret now : Nat) : Option Nat :=
  match decodeToken s with
  | none => none
  | some t =>
    if t.sig = hmacSig secret t.userId t.exp ∧ now < t.exp then some t.userId
    else none

/-- The `User` mongoose model (`src/models/User.js`): `_id` is `id`. -/
structure User where
  id : Nat
  mobile : Str
  otpHash : Option BHash
  otpExpiry : Option Nat
  createdAt : Nat
deriving DecidableEq

/-- The `Game` mongoose model (`src/models/Game.js`). -/
inductive Choice where
  | stone
  | paper
  | scissor
deriving DecidableEq

/-- A game outcome as stored in `Game.result`. -/
inductive GameResult where
  | win
  | lose
  | draw
deriving DecidableEq

/-- One persisted game round. -/
structure Game where
  id : Nat
  userId : Nat
  userChoice : Choice
  computerChoice : Choice
  result : GameResult
  createdAt : Nat
deriving DecidableEq

/-- The MongoDB state: the two collections. -/
structure Store where
  users : List User
  games : List Game
deriving DecidableEq

/-- The error taxonomy of the route handlers. -/
inductive ApiError where
  | validationErr
  | notFoundErr
  | expiredErr
  | mismatchErr
  | authError
  | internalErr
deriving DecidableEq

/-- `authMiddleware`: read the `Authorization` header, take the part after the
first space (`authHeader.split(" ")[1]`), and `jwt.verify` it; yields the
authenticated `userId`, or `none` for a 401. -/
def authCheck (header : Option Str) (secret now : Nat) : Option Nat :=
  match header with
  | none => none
  | some h =>
    if h == [] then none
    else
      match (splitOnChar ' ' h).get? 1 with
      | none => none
      | some tok => if tok == [] then none else jwtVerify tok secret now

/-- Response of `POST /auth/request-otp`. -/
structure OtpResp where
  status : Nat
  error : Option ApiError
  otp : Option Str
deriving DecidableEq

/-- `POST /auth/request-otp`.  `r < 9000` is `Math.floor(Math.random() * 9000)`
(so the issued code is `1000 + r`), `salt` the bcrypt salt draw, `now` the
clock, `fresh` the `_id` mongoose would assign to a newly created user. -/
def requestOtp (st : Store) (mobileV : Option BodyVal) (r salt now fresh : Nat) :
    Store × OtpResp :=
  match mobileV with
  | none => (st, ⟨400, some .validationErr, none⟩)
  | some v =>
    if truthy v then
      match v with
      | .vstr raw =>
        let mobile := trim raw
        if matchTenDigits mobile then
          let otp := 1000 + r
          let otpHash := bcryptHash (natToChars otp) salt
          let otpExpiry := now + 120000
          match st.users.find? (fun u => u.mobile == mobile) with
          | some u =>
            ({st with users := st.users.map (fun w =>
                if w.id == u.id then { w with otpHash := some otpHash, otpExpiry := some otpExpiry }
                else w)},
             ⟨200, none, some (natToChars otp)⟩)
          | none =>
            ({st with users := st.users ++ [⟨fresh, mobile, some otpHash, some otpExpiry, now⟩]},
             ⟨200, none, some (natToChars otp)⟩)
        else (st, ⟨400, some .validationErr, none⟩)
      | _ =>
        -- `mobile.trim()` on a truthy non-string throws; the catch block answers 500.
        (st, ⟨500, some .internalErr, none⟩)
    else (st, ⟨400, some .validationErr, none⟩)

/-- Response of `POST /auth/verify-otp`; the signed token is carried decoded. -/
structure TokenResp where
  status : Nat
  error : Option ApiError
  token : Option Token
deriving DecidableEq

/-- `POST /auth/verify-otp`. -/
def verifyOtp (st : Store) (mobileV otpV : Option BodyVal) (secret now : Nat) :
    Store × TokenResp :=
  match mobileV, otpV with
  | some mv, some ov =>
    if truthy mv && truthy ov then
      match mv, ov with
      | .vstr mraw, .vstr oraw =>
        if matchTenDigits (trim mraw) && matchFourDigits (trim oraw) then
          match st.users.find? (fun u => u.mobile == trim mraw) with
          | none => (st, ⟨400, some .notFoundErr, none⟩)
          | some u =>
            match u.otpExpiry with
            | none => (st, ⟨400, some .expiredErr, none⟩)
            | some e =>
              if e < now then (st, ⟨400, some .expiredErr, none⟩)
              else
                match u.otpHash with
                | none =>
                  -- `bcrypt.compare` against a null hash rejects; caught as 500.
                  (st, ⟨500, some .internalErr, none⟩)
                | some h =>
                  if bcryptCompare (trim oraw) h then
                    ({st with users := st.users.map (fun w =>
                        if w.id == u.id then { w with otpHash := none, otpExpiry := none }
                        else w)},
                     ⟨200, none, some (jwtSign secret u.id now)⟩)
                  else (st, ⟨400, some .mismatchErr, none⟩)
        else (st, ⟨400, some .validationErr, none⟩)
      | _, _ =>
        -- `.trim()` on a truthy non-string throws; the catch block answers 500.
        (st, ⟨500, some .internalErr, none⟩)
    else (st, ⟨400, some .validationErr, none⟩)
  | some mv, none =>
    if truthy mv then (st, ⟨400, some .validationErr, none⟩)
    else (st, ⟨400, some .validationErr, none⟩)
  | none, _ => (st, ⟨400, some .validationErr, none⟩)

/-- The fixed choice set, in the order of `const choices = [...]`. -/
def choices : List Choice := [.stone, .paper, .scissor]

/-- Parse the request's choice string against the three members of `choices`. -/
def parseChoice (s : Str) : Option Choice :=
  if s == ("stone").data then some .stone
  else if s == ("paper").data then some .paper
  else if s == ("scissor").data then some .scissor
  else none

/-- The adjudication of `POST /play`: `result` starts as `"lose"`, becomes
`"draw"` on equal choices, `"win"` on the three listed pairs. -/
def decideResult (userChoice computerChoice : Choice) : GameResult :=
  if userChoice = computerChoice then .draw
  else if (userChoice = .stone ∧ computerChoice = .scissor)
       ∨ (userChoice = .paper ∧ computerChoice = .stone)
       ∨ (userChoice = .scissor ∧ computerChoice = .paper) then .win
  else .lose

/-- Response of `POST /play`. -/
structure PlayResp where
  status : Nat
  error : Option ApiError
  userChoice : Option Choice
  computerChoice : Option Choice
  result : Option GameResult
deriving DecidableEq

/-- `POST /play`.  `rc : Fin 3` is `Math.floor(Math.random() * choices.length)`,
`fresh` the `_id` assigned to the new game row. -/
def play (st : Store) (header : Option Str) (choiceV : Option BodyVal)
    (secret now : Nat) (rc : Fin 3) (fresh : Nat) : Store × PlayResp :=
  match authCheck header secret now with
  | none => (st, ⟨401, some .authError, none, none, none⟩)
  | some uid =>
    match choiceV with
    | some (.vstr s) =>
      match parseChoice s with
      | some userChoice =>
        let computerChoice := choices.get rc
        let result := decideResult userChoice computerChoice
        ({st with games := st.games ++ [⟨fresh, uid, userChoice, computerChoice, result, now⟩]},
         ⟨200, none, some userChoice, some computerChoice, some result⟩)
      | none => (st, ⟨400, some .validationErr, none, none, none⟩)
    | _ => (st, ⟨400, some .validationErr, none, none, none⟩)

/-- Insert a game into a list kept in descending `createdAt` order. -/
def insertDesc (g : Game) : List Game → List Game
  | [] => [g]
  | h :: t => if h.createdAt ≤ g.createdAt then g :: h :: t else h :: insertDesc g t

/-- The store's `.sort({ createdAt: -1 })`: descending by `createdAt`. -/
def sortDesc (l : List Game) : List Game := l.foldr insertDesc []

/-- Response of `GET /history`. -/
structure HistResp where
  status : Nat
  error : Option ApiError
  games : List Game
deriving DecidableEq

/-- `GET /history`: the caller's rounds, newest first, `.limit(10)`.
The handler performs no writes, so it returns the store unchanged. -/
def history (st : Store) (header : Option Str) (secret now : Nat) :
    Store × HistResp :=
  match authCheck header secret now with
  | none => (st, ⟨401, some .authError, []⟩)
  | some uid =>
    (st, ⟨200, none, (sortDesc (st.games.filter (fun g => g.userId == uid))).take 10⟩)

/-- Response of `GET /scoreboard`. -/
structure ScoreResp where
  status : Nat
  error : Option ApiError
  win : Nat
  lose : Nat
  draw : Nat
deriving DecidableEq

/-- One step of the `forEach` tally: increment the counter of the stored `result`. -/
def tallyStep (t : Nat × Nat × Nat) (g : Game) : Nat × Nat × Nat :=
  match g.result with
  | .win => (t.1 + 1, t.2.1, t.2.2)
  | .lose => (t.1, t.2.1 + 1, t.2.2)
  | .draw => (t.1, t.2.1, t.2.2 + 1)

/-- The `forEach` tally over a game list: `(win, lose, draw)` counts. -/
def tally (games : List Game) : Nat × Nat × Nat :=
  games.foldl tallyStep (0, 0, 0)

/-- `GET /scoreboard`: counts over all of the caller's rounds.  No writes. -/
def scoreboard (st : Store) (header : Option Str) (secret now : Nat) :
    Store × ScoreResp :=
  match authCheck header secret now with
  | none => (st, ⟨401, some .authError, 0, 0, 0⟩)
  | some uid =>
    let t := tally (st.games.filter (fun g => g.userId == uid))
    (st, ⟨200, none, t.1, t.2.1, t.2.2⟩)

/-! ### Arithmetic and string lemmas -/

/-- The rendering worker ignores its fuel as long as the fuel exceeds `n`. -/
theorem toCharsAux_fuel (n : Nat) :
    ∀ f g, n < f → n < g → toCharsAux f n = toCharsAux g n := by
  induction n using Nat.strong_induction_on with
  | _ n ih =>
    intro f g hf hg
    obtain ⟨f, rfl⟩ : ∃ k, f = k + 1 := ⟨f - 1, by omega⟩
    obtain ⟨g, rfl⟩ : ∃ k, g = k + 1 := ⟨g - 1, by omega⟩
    simp only [toCharsAux]
    by_cases h : n < 10
    · simp [h]
    · rw [if_neg h, if_neg h, ih (n / 10) (by omega) f g (by omega) (by omega)]

/-- One-digit numbers render as a single character. -/
theorem natToChars_small (n : Nat) (h : n < 10) : natToChars n = [digitChar n] := by
  simp [natToChars, toCharsAux, h]

/-- Rendering peels the last decimal digit. -/
theorem natToChars_step (n : Nat) (h : 10 ≤ n) :
    natToChars n = natToChars (n / 10) ++ [digitChar (n % 10)] := by
  simp only [natToChars, toCharsAux]
  rw [if_neg (by omega)]
  congr 1
  exact toCharsAux_fuel (n / 10) n (n / 10 + 1) (by omega) (by omega)

/-- Every character of a rendered number is a decimal digit character. -/
theorem natToChars_chars (n : Nat) :
    ∀ c ∈ natToChars n, ∃ d, d < 10 ∧ c = digitChar d := by
  induction n using Nat.strong_induction_on with
  | _ n ih =>
    by_cases h : n < 10
    · rw [natToChars_small n h]
      intro c hc
      simp at hc
      exact ⟨n, h, hc⟩
    · rw [natToChars_step n (by omega)]
      intro c hc
      rcases List.mem_append.mp hc with h1 | h2
      · exact ih (n / 10) (by omega) c h1
      · simp at h2
        exact ⟨n % 10, by omega, h2⟩

/-- Digit characters pass `Char.isDigit`. -/
theorem digitChar_isDigit : ∀ d, d < 10 → (digitChar d).isDigit = true := by decide

/-- Digit characters are not whitespace. -/
theorem digitChar_not_ws : ∀ d, d < 10 → isWS (digitChar d) = false := by decide

/-- A rendered number is all digits. -/
theorem natToChars_all_digits (n : Nat) : (natToChars n).all Char.isDigit = true := by
  rw [List.all_eq_true]
  intro c hc
  obtain ⟨d, hd, rfl⟩ := natToChars_chars n c hc
  exact digitChar_isDigit d hd

/-- `dropWhile` is the identity when no element satisfies the predicate. -/
theorem dropWhile_no (p : Char → Bool) (s : Str) (h : ∀ c ∈ s, p c = false) :
    s.dropWhile p = s := by
  cases s with
  | nil => rfl
  | cons a t => simp [List.dropWhile_cons, h a (by simp)]

/-- `trim` is the identity on whitespace-free strings. -/
theorem trim_no_ws (s : Str) (h : ∀ c ∈ s, isWS c = false) : trim s = s := by
  unfold trim
  rw [dropWhile_no _ _ h, dropWhile_no, List.reverse_reverse]
  intro c hc
  exact h c (by simpa using hc)

/-- Trimming a rendered number changes nothing. -/
theorem trim_natToChars (n : Nat) : trim (natToChars n) = natToChars n := by
  apply trim_no_ws
  intro c hc
  obtain ⟨d, hd, rfl⟩ := natToChars_chars n c hc
  exact digitChar_not_ws d hd

/-- Four-digit numbers render as four characters. -/
theorem natToChars_length4 (n : Nat) (h1 : 1000 ≤ n) (h2 : n ≤ 9999) :
    (natToChars n).length = 4 := by
  rw [natToChars_step n (by omega), natToChars_step (n / 10) (by omega),
      natToChars_step (n / 10 / 10) (by omega),
      natToChars_small (n / 10 / 10 / 10) (by omega)]
  simp

/-- Rendered four-digit numbers pass the `/^\d{4}$/` test. -/
theorem matchFourDigits_natToChars (n : Nat) (h1 : 1000 ≤ n) (h2 : n ≤ 9999) :
    matchFourDigits (natToChars n) = true := by
  simp [matchFourDigits, natToChars_length4 n h1 h2, natToChars_all_digits]

/-! ### `split` lemmas -/

/-- A separator-free string is one field. -/
theorem splitOnChar_of_not_mem (sep : Char) (s : Str) (h : sep ∉ s) :
    splitOnChar sep s = [s] := by
  induction s with
  | nil => rfl
  | cons c cs ih =>
    have hne : c ≠ sep := fun hh => h (by simp [hh])
    have hcs : sep ∉ cs := fun hm => h (List.mem_cons_of_mem _ hm)
    simp only [splitOnChar, ih hcs]
    simp [hne]

/-- Splitting at the first separator occurrence. -/
theorem splitOnChar_append (sep : Char) (s r : Str) (h : sep ∉ s) :
    splitOnChar sep (s ++ sep :: r) = s :: splitOnChar sep r := by
  induction s with
  | nil => simp [splitOnChar]
  | cons c cs ih =>
    have hne : c ≠ sep := fun hh => h (by simp [hh])
    have hcs : sep ∉ cs := fun hm => h (List.mem_cons_of_mem _ hm)
    simp only [List.cons_append, splitOnChar, List.append_eq]
    rw [ih hcs]
    simp [hne]

/-! ### store lookup lemmas -/

/-- Updating the found record (ids distinct, update preserves the predicate)
moves `find?` to the updated record. -/
theorem find?_map_update {p : User → Bool} {l : List User} {u : User} (f : User → User)
    (hfind : l.find? p = some u)
    (hp : ∀ w, p (f w) = p w)
    (hids : l.Pairwise (fun a b => a.id ≠ b.id)) :
    (l.map (fun w => if w.id == u.id then f w else w)).find? p = some (f u) := by
  induction l with
  | nil => simp at hfind
  | cons a t ih =>
    by_cases ha : p a = true
    · have hua : u = a := by
        rw [List.find?_cons_of_pos _ ha] at hfind
        exact (Option.some_inj.mp hfind).symm
      subst hua
      simp only [List.map_cons]
      rw [if_pos (by simp)]
      rw [List.find?_cons_of_pos _ (by rw [hp]; exact ha)]
    · have hft : t.find? p = some u := by
        rw [List.find?_cons_of_neg _ ha] at hfind
        exact hfind
      have hidne : a.id ≠ u.id := by
        have hmem : u ∈ t := List.mem_of_find?_eq_some hft
        exact (List.pairwise_cons.mp hids).1 u hmem
      simp only [List.map_cons]
      rw [if_neg (by simp [hidne])]
      rw [List.find?_cons_of_neg _ ha]
      exact ih hft (List.pairwise_cons.mp hids).2

/-- Appending to a list where `find?` missed searches the appended part. -/
theorem find?_append_of_none {p : User → Bool} {l1 l2 : List User}
    (h : l1.find? p = none) : (l1 ++ l2).find? p = l2.find? p := by
  rw [List.find?_append, h, Option.none_or]

/-! ### sorting lemmas -/

/-- Membership through `insertDesc`. -/
theorem mem_insertDesc (g x : Game) (l : List Game) :
    x ∈ insertDesc g l ↔ x = g ∨ x ∈ l := by
  induction l with
  | nil => simp [insertDesc]
  | cons h t ih =>
    simp only [insertDesc]
    by_cases hc : h.createdAt ≤ g.createdAt
    · rw [if_pos hc]
      simp
    · rw [if_neg hc]
      simp [ih]
      tauto

/-- `insertDesc` preserves descending order. -/
theorem pairwise_insertDesc (g : Game) (l : List Game)
    (hl : l.Pairwise (fun a b => b.createdAt ≤ a.createdAt)) :
    (insertDesc g l).Pairwise (fun a b => b.createdAt ≤ a.createdAt) := by
  induction l with
  | nil => simp [insertDesc]
  | cons h t ih =>
    rw [List.pairwise_cons] at hl
    obtain ⟨hh, ht⟩ := hl
    simp only [insertDesc]
    by_cases hc : h.createdAt ≤ g.createdAt
    · rw [if_pos hc, List.pairwise_cons]
      refine ⟨?_, List.pairwise_cons.mpr ⟨hh, ht⟩⟩
      intro y hy
      rcases List.mem_cons.mp hy with rfl | hyt
      · exact hc
      · exact le_trans (hh y hyt) hc
    · rw [if_neg hc, List.pairwise_cons]
      refine ⟨?_, ih ht⟩
      intro y hy
      rcases (mem_insertDesc g y t).mp hy with rfl | hyt
      · omega
      · exact hh y hyt

/-- `sortDesc` sorts by `createdAt` descending (ties adjacent). -/
theorem sortDesc_pairwise (l : List Game) :
    (sortDesc l).Pairwise (fun a b => b.createdAt ≤ a.createdAt) := by
  induction l with
  | nil => simp [sortDesc]
  | cons h t ih => exact pairwise_insertDesc h _ ih

/-- `sortDesc` neither adds nor removes rounds. -/
theorem mem_sortDesc (x : Game) (l : List Game) : x ∈ sortDesc l ↔ x ∈ l := by
  induction l with
  | nil => simp [sortDesc]
  | cons h t ih =>
    show x ∈ insertDesc h (sortDesc t) ↔ _
    rw [mem_insertDesc]
    simp [ih]

/-! ### tally lemmas -/

/-- The fold underlying `tally`, with a general accumulator. -/
theorem tally_go (l : List Game) :
    ∀ a b c : Nat,
      l.foldl tallyStep (a, b, c)
        = (a + l.countP (fun g => g.result == GameResult.win),
           b + l.countP (fun g => g.result == GameResult.lose),
           c + l.countP (fun g => g.result == GameResult.draw)) := by
  induction l with
  | nil => simp
  | cons g t ih =>
    intro a b c
    rw [List.foldl_cons]
    cases hg : g.result with
    | win =>
      have h1 : tallyStep (a, b, c) g = (a + 1, b, c) := by simp [tallyStep, hg]
      rw [h1, ih (a + 1) b c]
      simp only [List.countP_cons, hg, Prod.mk.injEq]
      refine ⟨by simp; omega, by simp, by simp⟩
    | lose =>
      have h1 : tallyStep (a, b, c) g = (a, b + 1, c) := by simp [tallyStep, hg]
      rw [h1, ih a (b + 1) c]
      simp only [List.countP_cons, hg, Prod.mk.injEq]
      refine ⟨by simp, by simp; omega, by simp⟩
    | draw =>
      have h1 : tallyStep (a, b, c) g = (a, b, c + 1) := by simp [tallyStep, hg]
      rw [h1, ih a b (c + 1)]
      simp only [List.countP_cons, hg, Prod.mk.injEq]
      refine ⟨by simp, by simp, by simp; omega⟩

/-- `tally` counts each outcome. -/
theorem tally_eq (l : List Game) :
    tally l = (l.countP (fun g => g.result == GameResult.win),
               l.countP (fun g => g.result == GameResult.lose),
               l.countP (fun g => g.result == GameResult.draw)) := by
  simpa using tally_go l 0 0 0

/-! ### requestOtp state lemma -/

/-- After a successful `requestOtp` for a well-formed mobile, `find?` by that
mobile yields a record holding the fresh hash and the `now + 2min` expiry;
the id invariant and the games collection are untouched, and the response
carries the plaintext code `1000 + r`. -/
theorem requestOtp_state (st : Store) (mobile : Str) (r salt now fresh : Nat)
    (hm : matchTenDigits (trim mobile) = true)
    (hids : st.users.Pairwise (fun a b => a.id ≠ b.id))
    (hfresh : ∀ u ∈ st.users, u.id ≠ fresh) :
    ∃ u' : User,
      (requestOtp st (some (.vstr mobile)) r salt now fresh).1.users.find?
          (fun u => u.mobile == trim mobile) = some u' ∧
      u'.mobile = trim mobile ∧
      u'.otpHash = some (bcryptHash (natToChars (1000 + r)) salt) ∧
      u'.otpExpiry = some (now + 120000) ∧
      (requestOtp st (some (.vstr mobile)) r salt now fresh).1.users.Pairwise
        (fun a b => a.id ≠ b.id) ∧
      (requestOtp st (some (.vstr mobile)) r salt now fresh).1.games = st.games ∧
      (requestOtp st (some (.vstr mobile)) r salt now fresh).2
        = ⟨200, none, some (natToChars (1000 + r))⟩ := by
  have hne : mobile ≠ [] := by
    intro h0
    rw [h0] at hm
    simp [trim, matchTenDigits] at hm
  have htr : truthy (.vstr mobile) = true := by simp [truthy, hne]
  cases hfind : st.users.find? (fun u => u.mobile == trim mobile) with
  | some u0 =>
    have hreq : requestOtp st (some (.vstr mobile)) r salt now fresh
        = (⟨st.users.map (fun w =>
              if w.id == u0.id then
                { w with otpHash := some (bcryptHash (natToChars (1000 + r)) salt),
                         otpExpiry := some (now + 120000) }
              else w), st.games⟩,
           ⟨200, none, some (natToChars (1000 + r))⟩) := by
      simp [requestOtp, htr, hm, hfind]
    refine ⟨{ u0 with otpHash := some (bcryptHash (natToChars (1000 + r)) salt),
                      otpExpiry := some (now + 120000) }, ?_, ?_, rfl, rfl, ?_, ?_, ?_⟩
    · rw [hreq]
      exact find?_map_update _ hfind (fun w => rfl) hids
    · have := List.find?_some hfind
      simpa using this
    · rw [hreq]
      rw [List.pairwise_map]
      refine hids.imp ?_
      intro a b hab
      split <;> split <;> simpa using hab
    · rw [hreq]
    · rw [hreq]
  | none =>
    have hreq : requestOtp st (some (.vstr mobile)) r salt now fresh
        = (⟨st.users ++ [⟨fresh, trim mobile, some (bcryptHash (natToChars (1000 + r)) salt),
              some (now + 120000), now⟩], st.games⟩,
           ⟨200, none, some (natToChars (1000 + r))⟩) := by
      simp [requestOtp, htr, hm, hfind]
    refine ⟨⟨fresh, trim mobile, some (bcryptHash (natToChars (1000 + r)) salt),
              some (now + 120000), now⟩, ?_, rfl, rfl, rfl, ?_, ?_, ?_⟩
    · rw [hreq]
      rw [find?_append_of_none hfind]
      simp
    · rw [hreq]
      rw [List.pairwise_append]
      refine ⟨hids, by simp, ?_⟩
      intro a ha b hb
      simp at hb
      rw [hb]
      exact hfresh a ha
    · rw [hreq]
    · rw [hreq]

/-! ### verifyOtp path lemmas -/

/-- A string passing `/^\d{10}$/` after trimming is nonempty. -/
theorem ne_nil_of_matchTen (s : Str) (hm : matchTenDigits (trim s) = true) : s ≠ [] := by
  intro h0
  rw [h0] at hm
  simp [trim, matchTenDigits] at hm

/-- A string passing `/^\d{4}$/` after trimming is nonempty. -/
theorem ne_nil_of_matchFour (s : Str) (ho : matchFourDigits (trim s) = true) : s ≠ [] := by
  intro h0
  rw [h0] at ho
  simp [trim, matchFourDigits] at ho

/-- The success path of `verifyOtp`: well-formed inputs, a found user, an
unexpired stored expiry and a matching hash clear the OTP fields of exactly
that user and answer 200 with a token for its id. -/
theorem verifyOtp_success (st : Store) (mraw oraw : Str) (secret now : Nat)
    (u : User) (h : BHash)
    (hm : matchTenDigits (trim mraw) = true)
    (ho : matchFourDigits (trim oraw) = true)
    (hfind : st.users.find? (fun w => w.mobile == trim mraw) = some u)
    (he : ∃ e, u.otpExpiry = some e ∧ ¬ e < now)
    (hhash : u.otpHash = some h)
    (hcmp : bcryptCompare (trim oraw) h = true) :
    verifyOtp st (some (.vstr mraw)) (some (.vstr oraw)) secret now
      = (⟨st.users.map (fun w =>
            if w.id == u.id then { w with otpHash := none, otpExpiry := none } else w),
          st.games⟩,
         ⟨200, none, some (jwtSign secret u.id now)⟩) := by
  obtain ⟨e, he1, he2⟩ := he
  have hmne : mraw ≠ [] := ne_nil_of_matchTen mraw hm
  have hone : oraw ≠ [] := ne_nil_of_matchFour oraw ho
  simp [verifyOtp, truthy, hmne, hone, hm, ho, hfind, he1, he2, hhash, hcmp]

/-- The expired path of `verifyOtp`: an unset expiry, or one strictly before
`now`, answers 400 `ExpiredError` and leaves the store untouched — the stored
hash is never consulted. -/
theorem verifyOtp_expired (st : Store) (mraw oraw : Str) (secret now : Nat) (u : User)
    (hm : matchTenDigits (trim mraw) = true)
    (ho : matchFourDigits (trim oraw) = true)
    (hfind : st.users.find? (fun w => w.mobile == trim mraw) = some u)
    (he : u.otpExpiry = none ∨ ∃ e, u.otpExpiry = some e ∧ e < now) :
    verifyOtp st (some (.vstr mraw)) (some (.vstr oraw)) secret now
      = (st, ⟨400, some .expiredErr, none⟩) := by
  have hmne : mraw ≠ [] := ne_nil_of_matchTen mraw hm
  have hone : oraw ≠ [] := ne_nil_of_matchFour oraw ho
  rcases he with he | ⟨e, he1, he2⟩
  · simp [verifyOtp, truthy, hmne, hone, hm, ho, hfind, he]
  · simp [verifyOtp, truthy, hmne, hone, hm, ho, hfind, he1, he2]

/-! ### Concrete scenario data for witnesses and counterexamples -/

/-- A valid 10-digit mobile number. -/
def mob0 : Str := ("9876543210").data

/-- The empty store. -/
def stEmpty : Store := ⟨[], []⟩

/-- A serialised token for user 5 signed with secret 2, expiring at 3600000. -/
def tokC : Str :=
  natToChars 5 ++ '.' :: natToChars 3600000 ++ '.' :: natToChars (hmacSig 2 5 3600000)

/-- A well-formed `Authorization` header carrying `tokC`. -/
def hdrC : Str := ("Bearer ").data ++ tokC

/-- A user holding a hash of code 1234 that expires at instant 100. -/
def ub4 : User := ⟨1, mob0, some (bcryptHash (("1234").data) 0), some 100, 0⟩

/-- Two rounds of user 5 sharing the same creation instant. -/
def stC6 : Store := ⟨[], [⟨1, 5, .stone, .paper, .lose, 7⟩, ⟨2, 5, .stone, .stone, .draw, 7⟩]⟩

/-- The store after `request-otp` for `mob0` with draw 0 at instant 0. -/
def stA : Store := (requestOtp stEmpty (some (.vstr mob0)) 0 0 0 1).1

/-- The store after then verifying code 1000 at instant 5. -/
def stB : Store := (verifyOtp stA (some (.vstr mob0)) (some (.vstr (natToChars 1000))) 2 5).1

/-! ### Claim theorems -/

/-- C1: for every user and computer choice, `/play` adjudicates `draw` iff the
choices are equal, `win` iff the pair is (stone,scissor), (paper,stone) or
(scissor,paper), and `lose` otherwise; and the stored `GameRound` records
exactly the two choices and this result. -/
theorem game_C1_adjudication (u c : Choice) (st : Store) (header : Option Str)
    (s : Str) (secret now : Nat) (rc : Fin 3) (fresh uid : Nat)
    (hauth : authCheck header secret now = some uid)
    (hs : parseChoice s = some u)
    (hc : choices.get rc = c) :
    ((decideResult u c = .draw) ↔ u = c) ∧
    ((decideResult u c = .win) ↔
      ((u = .stone ∧ c = .scissor) ∨ (u = .paper ∧ c = .stone) ∨
       (u = .scissor ∧ c = .paper))) ∧
    ((decideResult u c = .lose) ↔
      (¬ u = c ∧ ¬ ((u = .stone ∧ c = .scissor) ∨ (u = .paper ∧ c = .stone) ∨
        (u = .scissor ∧ c = .paper)))) ∧
    play st header (some (.vstr s)) secret now rc fresh
      = ({st with games := st.games ++ [⟨fresh, uid, u, c, decideResult u c, now⟩]},
         ⟨200, none, some u, some c, some (decideResult u c)⟩) := by
  refine ⟨?_, ?_, ?_, ?_⟩
  · cases u <;> cases c <;> simp [decideResult]
  · cases u <;> cases c <;> simp [decideResult]
  · cases u <;> cases c <;> simp [decideResult]
  · simp only [List.get_eq_getElem] at hc
    simp [play, hauth, hs, hc]

/-- Witness for C1 at stone versus scissor with a concrete store and header. -/
theorem game_C1_witness :
    play stEmpty (some hdrC) (some (.vstr (("stone").data))) 2 50 2 9
      = ({stEmpty with games :=
            stEmpty.games ++ [⟨9, 5, .stone, .scissor, decideResult .stone .scissor, 50⟩]},
         ⟨200, none, some .stone, some .scissor, some (decideResult .stone .scissor)⟩) :=
  (game_C1_adjudication .stone .scissor stEmpty (some hdrC) (("stone").data) 2 50 2 9 5
    (by decide) (by decide) (by decide)).2.2.2

/-- C3: a request to `/play`, `/history` or `/scoreboard` that does not carry a
verifiable, unexpired bearer token gets status 401 and the store is unchanged. -/
theorem auth_C3_gate (st : Store) (header : Option Str) (choiceV : Option BodyVal)
    (secret now : Nat) (rc : Fin 3) (fresh : Nat)
    (hauth : authCheck header secret now = none) :
    play st header choiceV secret now rc fresh
      = (st, ⟨401, some .authError, none, none, none⟩) ∧
    history st header secret now = (st, ⟨401, some .authError, []⟩) ∧
    scoreboard st header secret now = (st, ⟨401, some .authError, 0, 0, 0⟩) := by
  refine ⟨?_, ?_, ?_⟩ <;> simp [play, history, scoreboard, hauth]

/-- Witness for C3: a missing header is rejected by all three routes. -/
theorem auth_C3_witness :
    play stEmpty none (some (.vstr (("stone").data))) 2 0 0 9
      = (stEmpty, ⟨401, some .authError, none, none, none⟩) ∧
    history stEmpty none 2 0 = (stEmpty, ⟨401, some .authError, []⟩) ∧
    scoreboard stEmpty none 2 0 = (stEmpty, ⟨401, some .authError, 0, 0, 0⟩) :=
  auth_C3_gate stEmpty none (some (.vstr (("stone").data))) 2 0 0 9 rfl

/-- C5: a failing `verify-otp` leaves the store unchanged; on success exactly
the found user's `otpHash`/`otpExpiry` are cleared and the returned token
embeds that user's key. -/
theorem otp_C5_frame (st : Store) (mobileV otpV : Option BodyVal) (secret now : Nat) :
    ((verifyOtp st mobileV otpV secret now).2.status ≠ 200 →
      (verifyOtp st mobileV otpV secret now).1 = st) ∧
    ((verifyOtp st mobileV otpV secret now).2.status = 200 →
      ∃ u, u ∈ st.users ∧
        (verifyOtp st mobileV otpV secret now).2.token = some (jwtSign secret u.id now) ∧
        (verifyOtp st mobileV otpV secret now).1.users
          = st.users.map (fun w =>
              if w.id == u.id then { w with otpHash := none, otpExpiry := none } else w) ∧
        (verifyOtp st mobileV otpV secret now).1.games = st.games) := by
  unfold verifyOtp
  repeat' split
  all_goals
    first
      | exact ⟨fun _ => rfl, fun h => by simp at h⟩
      | exact ⟨fun h => by simp at h,
               fun _ => ⟨_, List.mem_of_find?_eq_some (by assumption), rfl, rfl, rfl⟩⟩

/-- Witness for C5 at a concrete failing request. -/
theorem otp_C5_witness :
    (verifyOtp stEmpty none none 2 5).2.status ≠ 200 ∧
    (verifyOtp stEmpty none none 2 5).1 = stEmpty :=
  ⟨by decide, (otp_C5_frame stEmpty none none 2 5).1 (by decide)⟩

/-- C9: the middleware never inspects the scheme word; any header whose second
space-separated part is a validly signed, unexpired token authenticates. -/
theorem auth_C9_scheme (scheme tok : Str) (secret now uid : Nat)
    (hs : ' ' ∉ scheme) (ht : ' ' ∉ tok)
    (hv : jwtVerify tok secret now = some uid) :
    authCheck (some (scheme ++ ' ' :: tok)) secret now = some uid := by
  have htne : tok ≠ [] := by
    intro h0
    rw [h0] at hv
    simp [jwtVerify, decodeToken, splitOnChar, parseNat] at hv
  simp only [authCheck]
  rw [if_neg (by simp)]
  rw [splitOnChar_append ' ' scheme tok hs, splitOnChar_of_not_mem ' ' tok ht]
  simp [htne, hv]

/-- Witness for C9: the scheme word `Token` (not `Bearer`) is accepted. -/
theorem auth_C9_witness :
    authCheck (some ((("Token").data) ++ ' ' :: tokC)) 2 50 = some 5 :=
  auth_C9_scheme (("Token").data) tokC 2 50 5 (by decide) (by decide) (by decide)

/-- C10: a present, truthy, non-string `mobile` in `request-otp` makes
`.trim()` throw, so the route answers 500 (InternalError), not 400. -/
theorem otp_C10_nonstring (st : Store) (v : BodyVal) (r salt now fresh : Nat)
    (htv : truthy v = true) (hns : ∀ s, v ≠ .vstr s) :
    requestOtp st (some v) r salt now fresh = (st, ⟨500, some .internalErr, none⟩) := by
  cases v with
  | vstr s => exact absurd rfl (hns s)
  | vnum n => simp [requestOtp, htv]
  | vbool b => simp [requestOtp, htv]
  | vnull => simp [truthy] at htv

/-- Witness for C10 at the JSON number 7. -/
theorem otp_C10_witness :
    requestOtp stEmpty (some (.vnum 7)) 0 0 0 1 = (stEmpty, ⟨500, some .internalErr, none⟩) :=
  otp_C10_nonstring stEmpty (.vnum 7) 0 0 0 1 (by decide) (fun s h => by cases h)

/-- Counterexample to C2 as stated: after a successful verification, a second
attempt with the same phone and code fails with `ExpiredError` ("OTP expired"),
not `MismatchError` — the expiry field is cleared together with the hash and
the expiry check runs before the hash comparison. -/
theorem otp_C2_counterexample :
    (verifyOtp stA (some (.vstr mob0)) (some (.vstr (natToChars 1000))) 2 5).2.status = 200 ∧
    (verifyOtp stB (some (.vstr mob0)) (some (.vstr (natToChars 1000))) 2 6).2.error
      = some ApiError.expiredErr ∧
    ¬ (verifyOtp stB (some (.vstr mob0)) (some (.vstr (natToChars 1000))) 2 6).2.error
      = some ApiError.mismatchErr := by
  decide

/-- C2 (amended): for every valid 10-digit phone, requesting an OTP and
verifying with the returned code inside the window succeeds exactly once; the
second attempt with the same code fails with `ExpiredError` (the cleared
expiry short-circuits before any hash comparison) and changes nothing. -/
theorem otp_C2_amended (st : Store) (mobile : Str)
    (r salt now1 fresh secret now2 now3 : Nat)
    (hm : matchTenDigits (trim mobile) = true)
    (hids : st.users.Pairwise (fun a b => a.id ≠ b.id))
    (hfresh : ∀ u ∈ st.users, u.id ≠ fresh)
    (hr : r < 9000)
    (hw : ¬ now1 + 120000 < now2) :
    ∃ st1 st2 uid,
      requestOtp st (some (.vstr mobile)) r salt now1 fresh
        = (st1, ⟨200, none, some (natToChars (1000 + r))⟩) ∧
      verifyOtp st1 (some (.vstr mobile)) (some (.vstr (natToChars (1000 + r)))) secret now2
        = (st2, ⟨200, none, some (jwtSign secret uid now2)⟩) ∧
      verifyOtp st2 (some (.vstr mobile)) (some (.vstr (natToChars (1000 + r)))) secret now3
        = (st2, ⟨400, some .expiredErr, none⟩) := by
  obtain ⟨u', hfind1, hmob, hhash, hexp, hids1, hgames1, hresp1⟩ :=
    requestOtp_state st mobile r salt now1 fresh hm hids hfresh
  have ho : matchFourDigits (trim (natToChars (1000 + r))) = true := by
    rw [trim_natToChars]
    exact matchFourDigits_natToChars _ (by omega) (by omega)
  have hcmp : bcryptCompare (trim (natToChars (1000 + r)))
      (bcryptHash (natToChars (1000 + r)) salt) = true := by
    simp [bcryptCompare, bcryptHash, trim_natToChars]
  have hv1 := verifyOtp_success ((requestOtp st (some (.vstr mobile)) r salt now1 fresh).1)
      mobile (natToChars (1000 + r)) secret now2 u'
      (bcryptHash (natToChars (1000 + r)) salt) hm ho hfind1
      ⟨now1 + 120000, hexp, hw⟩ hhash hcmp
  have hfind2 := find?_map_update
      (fun w => ({ w with otpHash := none, otpExpiry := none } : User))
      hfind1 (fun w => rfl) hids1
  have hv2 := verifyOtp_expired
      ⟨(requestOtp st (some (.vstr mobile)) r salt now1 fresh).1.users.map (fun w =>
          if w.id == u'.id then { w with otpHash := none, otpExpiry := none } else w),
        (requestOtp st (some (.vstr mobile)) r salt now1 fresh).1.games⟩
      mobile (natToChars (1000 + r)) secret now3 _ hm ho hfind2 (Or.inl rfl)
  refine ⟨(requestOtp st (some (.vstr mobile)) r salt now1 fresh).1, _, u'.id,
          Prod.ext rfl hresp1, hv1, hv2⟩

/-- Witness for the amended C2 on the concrete pipeline. -/
theorem otp_C2_witness :
    ∃ st1 st2 uid,
      requestOtp stEmpty (some (.vstr mob0)) 0 0 0 1
        = (st1, ⟨200, none, some (natToChars 1000)⟩) ∧
      verifyOtp st1 (some (.vstr mob0)) (some (.vstr (natToChars 1000))) 2 5
        = (st2, ⟨200, none, some (jwtSign 2 uid 5)⟩) ∧
      verifyOtp st2 (some (.vstr mob0)) (some (.vstr (natToChars 1000))) 2 6
        = (st2, ⟨400, some .expiredErr, none⟩) :=
  otp_C2_amended stEmpty mob0 0 0 0 1 2 5 6 (by decide) (by simp [stEmpty]) (by simp [stEmpty])
    (by decide) (by decide)

/-- Counterexample to C4 as stated: at the exact expiry instant the code is
still accepted — the check `otpExpiry < now` is strict. -/
theorem otp_C4_counterexample :
    (verifyOtp ⟨[ub4], []⟩ (some (.vstr mob0)) (some (.vstr (("1234").data))) 2 100).2.status
      = 200 ∧
    ¬ (verifyOtp ⟨[ub4], []⟩ (some (.vstr mob0)) (some (.vstr (("1234").data))) 2 100).2.error
      = some ApiError.expiredErr := by
  decide

/-- C4 (amended): a verify-otp request fails with `ExpiredError` whenever the
stored `otpExpiry` is unset or strictly before the current time, even when the
presented code matches the stored hash; at `now = otpExpiry` the code is still
accepted. -/
theorem otp_C4_amended (st : Store) (mraw oraw : Str) (secret now : Nat) (u : User)
    (hm : matchTenDigits (trim mraw) = true)
    (ho : matchFourDigits (trim oraw) = true)
    (hfind : st.users.find? (fun w => w.mobile == trim mraw) = some u)
    (he : u.otpExpiry = none ∨ ∃ e, u.otpExpiry = some e ∧ e < now) :
    verifyOtp st (some (.vstr mraw)) (some (.vstr oraw)) secret now
      = (st, ⟨400, some .expiredErr, none⟩) :=
  verifyOtp_expired st mraw oraw secret now u hm ho hfind he

/-- Witness for the amended C4 one instant past expiry, with a matching code. -/
theorem otp_C4_witness :
    verifyOtp ⟨[ub4], []⟩ (some (.vstr mob0)) (some (.vstr (("1234").data))) 2 101
      = (⟨[ub4], []⟩, ⟨400, some .expiredErr, none⟩) :=
  otp_C4_amended ⟨[ub4], []⟩ mob0 (("1234").data) 2 101 ub4
    (by decide) (by decide) (by decide) (Or.inr ⟨100, rfl, by decide⟩)

/-- Counterexample to C6 as stated: with two rounds of the caller created at
the same instant, the history is not *strictly* descending in creation time. -/
theorem game_C6_counterexample :
    authCheck (some hdrC) 2 50 = some 5 ∧
    ¬ (history stC6 (some hdrC) 2 50).2.games.Pairwise
        (fun a b => b.createdAt < a.createdAt) := by
  refine ⟨by decide, ?_⟩
  intro hpw
  have h12 : (history stC6 (some hdrC) 2 50).2.games
      = [⟨1, 5, .stone, .paper, .lose, 7⟩, ⟨2, 5, .stone, .stone, .draw, 7⟩] := by decide
  rw [h12] at hpw
  have h7 := (List.pairwise_cons.mp hpw).1
    (⟨2, 5, .stone, .stone, .draw, 7⟩ : Game) (by simp)
  simp at h7

/-- C6 (amended): for every authenticated caller and store, `/history` returns
at most 10 records, all owned by the caller, ordered by creation time
non-increasing (descending, with ties possible at equal timestamps); the
store is unchanged. -/
theorem game_C6_amended (st : Store) (header : Option Str) (secret now uid : Nat)
    (hauth : authCheck header secret now = some uid) :
    (history st header secret now).1 = st ∧
    (history st header secret now).2.status = 200 ∧
    (history st header secret now).2.games.length ≤ 10 ∧
    (∀ g ∈ (history st header secret now).2.games, g.userId = uid) ∧
    (history st header secret now).2.games.Pairwise
      (fun a b => b.createdAt ≤ a.createdAt) := by
  have hh : history st header secret now
      = (st, ⟨200, none, (sortDesc (st.games.filter (fun g => g.userId == uid))).take 10⟩) := by
    simp [history, hauth]
  rw [hh]
  refine ⟨rfl, rfl, ?_, ?_, ?_⟩
  · rw [List.length_take]
    exact Nat.min_le_left _ _
  · intro g hg
    have h1 := List.mem_of_mem_take hg
    have h2 := (mem_sortDesc _ _).mp h1
    have h3 := (List.mem_filter.mp h2).2
    simpa using h3
  · exact List.Pairwise.sublist (List.take_sublist _ _) (sortDesc_pairwise _)

/-- Witness for the amended C6 on a concrete store and header. -/
theorem game_C6_witness :
    (history stC6 (some hdrC) 2 50).1 = stC6 ∧
    (history stC6 (some hdrC) 2 50).2.status = 200 ∧
    (history stC6 (some hdrC) 2 50).2.games.length ≤ 10 ∧
    (∀ g ∈ (history stC6 (some hdrC) 2 50).2.games, g.userId = 5) ∧
    (history stC6 (some hdrC) 2 50).2.games.Pairwise
      (fun a b => b.createdAt ≤ a.createdAt) :=
  game_C6_amended stC6 (some hdrC) 2 50 5 (by decide)

/-- C7: `/scoreboard` returns, for each outcome, the number of the caller's
stored rounds with that outcome, over all rounds with no cap and counting no
other identity's rounds; the store is unchanged. -/
theorem game_C7_scoreboard (st : Store) (header : Option Str) (secret now uid : Nat)
    (hauth : authCheck header secret now = some uid) :
    (scoreboard st header secret now).1 = st ∧
    (scoreboard st header secret now).2.status = 200 ∧
    (scoreboard st header secret now).2.win
      = st.games.countP (fun g => g.result == GameResult.win && g.userId == uid) ∧
    (scoreboard st header secret now).2.lose
      = st.games.countP (fun g => g.result == GameResult.lose && g.userId == uid) ∧
    (scoreboard st header secret now).2.draw
      = st.games.countP (fun g => g.result == GameResult.draw && g.userId == uid) := by
  have hsc : scoreboard st header secret now
      = (st, ⟨200, none,
          (tally (st.games.filter (fun g => g.userId == uid))).1,
          (tally (st.games.filter (fun g => g.userId == uid))).2.1,
          (tally (st.games.filter (fun g => g.userId == uid))).2.2⟩) := by
    simp [scoreboard, hauth]
  rw [hsc, tally_eq]
  exact ⟨rfl, rfl, List.countP_filter _ _ _, List.countP_filter _ _ _,
         List.countP_filter _ _ _⟩

/-- Witness for C7 on a concrete store and header. -/
theorem game_C7_witness :
    (scoreboard stC6 (some hdrC) 2 50).1 = stC6 ∧
    (scoreboard stC6 (some hdrC) 2 50).2.status = 200 ∧
    (scoreboard stC6 (some hdrC) 2 50).2.win
      = stC6.games.countP (fun g => g.result == GameResult.win && g.userId == 5) ∧
    (scoreboard stC6 (some hdrC) 2 50).2.lose
      = stC6.games.countP (fun g => g.result == GameResult.lose && g.userId == 5) ∧
    (scoreboard stC6 (some hdrC) 2 50).2.draw
      = stC6.games.countP (fun g => g.result == GameResult.draw && g.userId == 5) :=
  game_C7_scoreboard stC6 (some hdrC) 2 50 5 (by decide)

/-- C8: for every possible random draw, the issued plaintext code is the
decimal rendering of an integer between 1000 and 9999 (hence exactly four
digit characters), and the stored expiry is two minutes after issuance. -/
theorem otp_C8_range (st : Store) (mobile : Str) (r salt now fresh : Nat)
    (hr : r < 9000)
    (hm : matchTenDigits (trim mobile) = true)
    (hids : st.users.Pairwise (fun a b => a.id ≠ b.id))
    (hfresh : ∀ u ∈ st.users, u.id ≠ fresh) :
    (requestOtp st (some (.vstr mobile)) r salt now fresh).2
      = ⟨200, none, some (natToChars (1000 + r))⟩ ∧
    1000 ≤ 1000 + r ∧ 1000 + r ≤ 9999 ∧
    (natToChars (1000 + r)).length = 4 ∧
    (natToChars (1000 + r)).all Char.isDigit = true ∧
    ∃ u', (requestOtp st (some (.vstr mobile)) r salt now fresh).1.users.find?
            (fun u => u.mobile == trim mobile) = some u' ∧
          u'.otpExpiry = some (now + 120000) := by
  obtain ⟨u', h1, h2, h3, h4, h5, h6, h7⟩ :=
    requestOtp_state st mobile r salt now fresh hm hids hfresh
  exact ⟨h7, by omega, by omega, natToChars_length4 _ (by omega) (by omega),
         natToChars_all_digits _, u', h1, h4⟩

/-- Witness for C8 at draw 8999 (the largest), issuing code 9999. -/
theorem otp_C8_witness :
    (requestOtp stEmpty (some (.vstr mob0)) 8999 0 0 1).2
      = ⟨200, none, some (natToChars 9999)⟩ ∧
    1000 ≤ 1000 + 8999 ∧ 1000 + 8999 ≤ 9999 ∧
    (natToChars (1000 + 8999)).length = 4 ∧
    (natToChars (1000 + 8999)).all Char.isDigit = true ∧
    ∃ u', (requestOtp stEmpty (some (.vstr mob0)) 8999 0 0 1).1.users.find?
            (fun u => u.mobile == trim mob0) = some u' ∧
          u'.otpExpiry = some (0 + 120000) :=
  otp_C8_range stEmpty mob0 8999 0 0 1 (by decide) (by decide) (by simp [stEmpty])
    (by simp [stEmpty])
